import Mathlib

/-!
# Verification of the backtesting and performance-measurement core

Shallow embedding of the trading-simulation core of the stock-analysis
repository:

* `src/analyzers/backtester.py` — `BacktestEngine._simulate_trades`,
  `BacktestEngine.run_backtest`,
  `BacktestDataProcessor.generate_signals_for_backtest`;
* `src/analyzers/performance.py` — `PerformanceAnalyzer`
  (`calculate_comprehensive_metrics` and its sub-computations);
* `src/analyzers/strategies.py` — the per-row signal decisions of the four
  single-indicator strategies and `ComboStrategy.generate_signals`, plus
  `StrategyManager`.

Numbers are embedded as exact rationals (`ℚ`): the Python code computes with
floats, but every algorithmic property below (branch structure, sentinels,
conservation of cash, ordering of the trade log) is about the algorithm, and
the spec itself states the conservation law as exact.  Dates are embedded as
integers (`ℤ`): the code only compares them, subtracts them (`holding_days`)
and formats them.
-/

namespace StockAnalysis

/-- Per-period output of a signal policy, one row of the `signals` frame
built by every strategy in `strategies.py` (columns `buy_signal`,
`sell_signal`, `signal_strength`, `signal_reason`). -/
structure Signal where
  buy_signal : Bool
  sell_signal : Bool
  signal_strength : ℚ
  signal_reason : String
deriving DecidableEq, Repr

/-- One period of the price series together with its signal row.  The code
iterates `signals.iterrows()` and reads the close via `df.loc[date, 'Close']`;
the signal frame is produced with `index=df.index`, so the two frames are
date-aligned and are embedded as a single zipped sequence. -/
structure Period where
  date : ℤ
  close : ℚ
  signal : Signal
deriving DecidableEq, Repr

/-- The `position` dict built in `BacktestEngine._simulate_trades`
(the `type: 'long'` tag is constant and omitted). -/
structure Position where
  entry_date : ℤ
  entry_price : ℚ
  shares : ℤ
  entry_reason : String
deriving DecidableEq, Repr

/-- The trade dict appended to `trades` in `BacktestEngine._simulate_trades`. -/
structure Trade where
  entry_date : ℤ
  exit_date : ℤ
  entry_price : ℚ
  exit_price : ℚ
  shares : ℤ
  profit_loss : ℚ
  profit_loss_pct : ℚ
  entry_reason : String
  exit_reason : String
  holding_days : ℤ
deriving DecidableEq, Repr

/-- The mutable state threaded through the simulation loop of
`BacktestEngine._simulate_trades`: `cash`, the optional open `position`,
and the accumulated `trades` list. -/
structure SimState where
  cash : ℚ
  position : Option Position
  trades : List Trade
deriving DecidableEq, Repr

/-- Python's `int()` applied to a float truncates toward zero; on a
non-negative argument this is the floor. -/
def pyTrunc (q : ℚ) : ℤ :=
  if 0 ≤ q then ⌊q⌋ else -⌊-q⌋

/-- Builds the trade dict recorded when a position is closed at
`exit_date`/`exit_price` (both the signal-driven exit and the forced
end-of-series exit build it with exactly these formulas). -/
def closeTrade (pos : Position) (exit_date : ℤ) (exit_price : ℚ)
    (exit_reason : String) : Trade :=
  let exit_value := pos.shares * exit_price
  { entry_date := pos.entry_date
    exit_date := exit_date
    entry_price := pos.entry_price
    exit_price := exit_price
    shares := pos.shares
    profit_loss := exit_value - pos.shares * pos.entry_price
    profit_loss_pct := (exit_price - pos.entry_price) / pos.entry_price * 100
    entry_reason := pos.entry_reason
    exit_reason := exit_reason
    holding_days := exit_date - pos.entry_date }

/-- One iteration of the loop `for date, row in signals.iterrows()` in
`BacktestEngine._simulate_trades`.  The source guards are
`if row['buy_signal'] and position is None: ...` and
`elif row['sell_signal'] and position is not None: ...`; the two guards test
the position with opposite polarities, so the step is rendered as a match on
the position: with no open position only the buy branch can act, with an
open position only the sell branch can act. -/
def simStep (position_size : ℚ) (st : SimState) (p : Period) : SimState :=
  match st.position with
  | none =>
      if p.signal.buy_signal then
        let shares : ℤ := pyTrunc (st.cash * position_size / p.close)
        if 0 < shares then
          { st with
              position := some
                { entry_date := p.date
                  entry_price := p.close
                  shares := shares
                  entry_reason := p.signal.signal_reason }
              cash := st.cash - shares * p.close }
        else st
      else st
  | some pos =>
      if p.signal.sell_signal then
        { cash := st.cash + pos.shares * p.close
          position := none
          trades := st.trades ++
            [closeTrade pos p.date p.close p.signal.signal_reason] }
      else st

/-- `BacktestEngine._simulate_trades`: the in-order pass over the periods
followed by the forced closure of a still-open position at the final
period's date and close (`exit_reason` the literal `'期間終了'`, "period
end").  The whole final state is returned so that the final `cash` can be
reasoned about; the Python function returns `trades`. -/
def simulate (position_size initial_capital : ℚ)
    (periods : List Period) : SimState :=
  let st := periods.foldl (simStep position_size)
    { cash := initial_capital, position := none, trades := [] }
  match st.position, periods.getLast? with
  | some pos, some lastP =>
      { cash := st.cash + pos.shares * lastP.close
        position := none
        trades := st.trades ++
          [closeTrade pos lastP.date lastP.close ("期間終了")] }
  | _, _ => st

/-- `PerformanceAnalyzer._safe_numeric` replaces `None`, `NaN` and `±Infinity`
by a default before a value enters the report.  Over exact rationals none of
those values can arise, so the embedded sanitizer is the identity; the
defaults of the source (`0.0`, and `999.0` at the two sentinel call sites)
are therefore never reached. -/
def safe_numeric (q : ℚ) : ℚ := q

/-- `[t for t in trades if t['profit_loss'] > 0]`, the filter used by both
`_calculate_basic_stats` and `_calculate_profitability_metrics`. -/
def winningTrades (trades : List Trade) : List Trade :=
  trades.filter (fun t => 0 < t.profit_loss)

/-- `[t for t in trades if t['profit_loss'] < 0]`. -/
def losingTrades (trades : List Trade) : List Trade :=
  trades.filter (fun t => t.profit_loss < 0)

/-- `np.mean` on a list of numbers (the source only calls it on nonempty
lists; on `[]` this embedding yields `0` via division by zero on `ℚ`). -/
def npMean (l : List ℚ) : ℚ := l.sum / l.length

/-- `np.median`: middle element of the sorted list, or the average of the
two middle elements for even length. -/
def npMedian (l : List ℚ) : ℚ :=
  let s := l.insertionSort (· ≤ ·)
  if l.length % 2 = 1 then s.getD (l.length / 2) 0
  else (s.getD (l.length / 2 - 1) 0 + s.getD (l.length / 2) 0) / 2

/-- The dict returned by `PerformanceAnalyzer._calculate_basic_stats`.  The
six `Option` fields are the keys that the empty report of `_empty_metrics`
does not carry; `_calculate_basic_stats` always populates them. -/
structure BasicStats where
  total_trades : Nat
  winning_trades : Nat
  losing_trades : Nat
  win_rate : ℚ
  total_return : ℚ
  total_return_pct : ℚ
  avg_return_per_trade : Option ℚ
  avg_return_per_trade_pct : Option ℚ
  avg_holding_days : Option ℚ
  median_holding_days : Option ℚ
  initial_capital : Option ℚ
  final_value : Option ℚ
deriving DecidableEq, Repr

/-- `PerformanceAnalyzer._calculate_basic_stats`. -/
def calcBasicStats (trades : List Trade) (initial_capital : ℚ) : BasicStats :=
  let total_profit_loss := (trades.map (·.profit_loss)).sum
  let final_value := initial_capital + total_profit_loss
  let total_return_pct :=
    if 0 < initial_capital then total_profit_loss / initial_capital * 100 else 0
  let winning := winningTrades trades
  let losing := losingTrades trades
  { total_trades := trades.length
    winning_trades := winning.length
    losing_trades := losing.length
    win_rate := safe_numeric ((winning.length : ℚ) / trades.length * 100)
    total_return := safe_numeric total_profit_loss
    total_return_pct := safe_numeric total_return_pct
    avg_return_per_trade := some (safe_numeric (total_profit_loss / trades.length))
    avg_return_per_trade_pct := some (safe_numeric (total_return_pct / trades.length))
    avg_holding_days :=
      some (safe_numeric (npMean (trades.map (fun t => (t.holding_days : ℚ)))))
    median_holding_days :=
      some (safe_numeric (npMedian (trades.map (fun t => (t.holding_days : ℚ)))))
    initial_capital := some (safe_numeric initial_capital)
    final_value := some (safe_numeric final_value) }

/-- The dict returned by `PerformanceAnalyzer._calculate_profitability_metrics`
on its non-degenerate path. -/
structure ProfitabilityMetrics where
  gross_profit : ℚ
  gross_loss : ℚ
  avg_win : ℚ
  avg_loss : ℚ
  max_win : ℚ
  max_loss : ℚ
  profit_factor : ℚ
  payoff_ratio : ℚ
  expectancy : ℚ
  expectancy_pct : ℚ
deriving DecidableEq, Repr

/-- `PerformanceAnalyzer._calculate_profitability_metrics`: `none` embeds the
early `return \x7b\x7d` when there is neither a winning nor a losing trade. -/
def calcProfitabilityMetrics (trades : List Trade)
    (initial_capital : ℚ) : Option ProfitabilityMetrics :=
  let winning := winningTrades trades
  let losing := losingTrades trades
  if winning = [] ∧ losing = [] then none
  else
    let avg_win := if winning = [] then 0 else npMean (winning.map (·.profit_loss))
    let avg_loss := if losing = [] then 0 else npMean (losing.map (·.profit_loss))
    let max_win := if winning = [] then 0
      else ((winning.map (·.profit_loss)).max?).getD 0
    let max_loss := if losing = [] then 0
      else ((losing.map (·.profit_loss)).min?).getD 0
    let gross_profit := (winning.map (·.profit_loss)).sum
    let gross_loss := |(losing.map (·.profit_loss)).sum|
    let profit_factor :=
      safe_numeric (if 0 < gross_loss then gross_profit / gross_loss else 999)
    let payoff_ratio :=
      safe_numeric (if avg_loss ≠ 0 then |avg_win / avg_loss| else 999)
    let win_rate := (winning.length : ℚ) / trades.length
    let expectancy := avg_win * win_rate + avg_loss * (1 - win_rate)
    some
      { gross_profit := safe_numeric gross_profit
        gross_loss := safe_numeric gross_loss
        avg_win := safe_numeric avg_win
        avg_loss := safe_numeric avg_loss
        max_win := safe_numeric max_win
        max_loss := safe_numeric max_loss
        profit_factor := profit_factor
        payoff_ratio := payoff_ratio
        expectancy := safe_numeric expectancy
        expectancy_pct := safe_numeric (expectancy / initial_capital * 100) }

/-- The running state of `PerformanceAnalyzer._calculate_consecutive_trades`. -/
structure ConsecState where
  consecutive_wins : List Nat
  consecutive_losses : List Nat
  current_wins : Nat
  current_losses : Nat
deriving DecidableEq, Repr

/-- One iteration of the loop in
`PerformanceAnalyzer._calculate_consecutive_trades`: a strictly positive
`profit_loss` extends the winning streak (flushing any running losing
streak); everything else — losses AND exact zeroes — extends the losing
streak (flushing any running winning streak).  The counter being flushed is
reset inside the guard in the source; when the guard fails it is already 0. -/
def consecStep (s : ConsecState) (t : Trade) : ConsecState :=
  if 0 < t.profit_loss then
    { consecutive_wins := s.consecutive_wins
      consecutive_losses :=
        if 0 < s.current_losses then s.consecutive_losses ++ [s.current_losses]
        else s.consecutive_losses
      current_wins := s.current_wins + 1
      current_losses := if 0 < s.current_losses then 0 else s.current_losses }
  else
    { consecutive_wins :=
        if 0 < s.current_wins then s.consecutive_wins ++ [s.current_wins]
        else s.consecutive_wins
      consecutive_losses := s.consecutive_losses
      current_wins := if 0 < s.current_wins then 0 else s.current_wins
      current_losses := s.current_losses + 1 }

/-- `PerformanceAnalyzer._calculate_consecutive_trades`: fold over the trades
and flush the final running streaks. -/
def calcConsecutiveTrades (trades : List Trade) : List Nat × List Nat :=
  let s := trades.foldl consecStep
    { consecutive_wins := [], consecutive_losses := []
      current_wins := 0, current_losses := 0 }
  (if 0 < s.current_wins then s.consecutive_wins ++ [s.current_wins]
   else s.consecutive_wins,
   if 0 < s.current_losses then s.consecutive_losses ++ [s.current_losses]
   else s.consecutive_losses)

/-- The dict returned by `PerformanceAnalyzer.calculate_comprehensive_metrics`.
The risk, efficiency, market-comparison, monthly-analysis and trade-analysis
groups involve square roots, percentiles and covariances over floats whose
values no statement below reads; each of those groups is recorded only by
whether the dict the code places there is empty (`none`) or computed
(`some ()`).  `profitability_metrics` and `basic_stats` are embedded in
full. -/
structure MetricsReport where
  basic_stats : BasicStats
  risk_metrics : Option Unit
  profitability_metrics : Option ProfitabilityMetrics
  efficiency_metrics : Option Unit
  market_comparison : Option Unit
  monthly_analysis : Option Unit
  trade_analysis : Option Unit
deriving DecidableEq, Repr

/-- `PerformanceAnalyzer._empty_metrics`: the all-zero basic stats (only the
six keys the source dict carries) and every other group the empty dict. -/
def emptyMetrics : MetricsReport :=
  { basic_stats :=
      { total_trades := 0
        winning_trades := 0
        losing_trades := 0
        win_rate := 0
        total_return := 0
        total_return_pct := 0
        avg_return_per_trade := none
        avg_return_per_trade_pct := none
        avg_holding_days := none
        median_holding_days := none
        initial_capital := none
        final_value := none }
    risk_metrics := none
    profitability_metrics := none
    efficiency_metrics := none
    market_comparison := none
    monthly_analysis := none
    trade_analysis := none }

/-- `PerformanceAnalyzer.calculate_comprehensive_metrics`.  `price_data` is
the close-price series, read only for emptiness (by
`_calculate_market_comparison`).  For a nonempty trade log the risk,
efficiency, monthly and trade-analysis dicts are always nonempty in the
source (the trade-indexed portfolio curve then has at least two points, so
`daily_returns` is nonempty); market comparison additionally requires a
nonempty price series. -/
def calculate_comprehensive_metrics (trades : List Trade)
    (price_data : List ℚ) (initial_capital : ℚ) : MetricsReport :=
  if trades = [] then emptyMetrics
  else
    { basic_stats := calcBasicStats trades initial_capital
      risk_metrics := some ()
      profitability_metrics := calcProfitabilityMetrics trades initial_capital
      efficiency_metrics := some ()
      market_comparison := if price_data = [] then none else some ()
      monthly_analysis := some ()
      trade_analysis := some () }

/-- The buy/sell vote of one sub-strategy as read by
`ComboStrategy.generate_signals` (it reads only the two boolean columns of
the sub-strategy's signal frame). -/
structure SubSignal where
  buy_signal : Bool
  sell_signal : Bool
deriving DecidableEq, Repr

/-- One row of the indicator-annotated frame, as read by the four
sub-strategies.  `none` embeds `NaN` (insufficient rolling-window history). -/
structure IndicatorRow where
  close : ℚ
  rsi : Option ℚ
  sma25 : Option ℚ
  sma75 : Option ℚ
  macd_histogram : Option ℚ
  bb_upper : Option ℚ
  bb_lower : Option ℚ
deriving DecidableEq, Repr

/-- Per-row decision of `RSIStrategy.generate_signals` (a `NaN` RSI row is
skipped, i.e. keeps the neutral initialization). -/
def rsiRow (oversold_threshold overbought_threshold : ℚ)
    (r : IndicatorRow) : SubSignal :=
  match r.rsi with
  | none => { buy_signal := false, sell_signal := false }
  | some rsi =>
      if rsi ≤ oversold_threshold then
        { buy_signal := true, sell_signal := false }
      else if overbought_threshold ≤ rsi then
        { buy_signal := false, sell_signal := true }
      else { buy_signal := false, sell_signal := false }

/-- Per-row decision of `GoldenCrossStrategy.generate_signals` for row `i ≥ 1`
given row `i-1` (rows with any `NaN` moving average are skipped). -/
def goldenCrossRow (prev curr : IndicatorRow) : SubSignal :=
  match prev.sma25, prev.sma75, curr.sma25, curr.sma75 with
  | some prev_short, some prev_long, some curr_short, some curr_long =>
      if prev_short ≤ prev_long ∧ curr_long < curr_short then
        { buy_signal := true, sell_signal := false }
      else if prev_long ≤ prev_short ∧ curr_short < curr_long then
        { buy_signal := false, sell_signal := true }
      else { buy_signal := false, sell_signal := false }
  | _, _, _, _ => { buy_signal := false, sell_signal := false }

/-- Per-row decision of `MACDStrategy.generate_signals` for row `i ≥ 1`
given row `i-1`. -/
def macdRow (prev curr : IndicatorRow) : SubSignal :=
  match prev.macd_histogram, curr.macd_histogram with
  | some prev_hist, some curr_hist =>
      if prev_hist ≤ 0 ∧ 0 < curr_hist then
        { buy_signal := true, sell_signal := false }
      else if 0 ≤ prev_hist ∧ curr_hist < 0 then
        { buy_signal := false, sell_signal := true }
      else { buy_signal := false, sell_signal := false }
  | _, _ => { buy_signal := false, sell_signal := false }

/-- Per-row decision of `BollingerBandStrategy.generate_signals` (rows with a
`NaN` band are skipped). -/
def bollingerRow (r : IndicatorRow) : SubSignal :=
  match r.bb_upper, r.bb_lower with
  | some bb_upper, some bb_lower =>
      if r.close ≤ bb_lower then
        { buy_signal := true, sell_signal := false }
      else if bb_upper ≤ r.close then
        { buy_signal := false, sell_signal := true }
      else { buy_signal := false, sell_signal := false }
  | _, _ => { buy_signal := false, sell_signal := false }

/-- The parameters of `ComboStrategy` (weights, thresholds). -/
structure ComboParams where
  rsi_weight : ℚ
  ma_weight : ℚ
  macd_weight : ℚ
  bb_weight : ℚ
  buy_threshold : ℚ
  sell_threshold : ℚ
deriving DecidableEq, Repr

/-- The constructor defaults of `ComboStrategy.__init__`. -/
def defaultComboParams : ComboParams :=
  { rsi_weight := 0.25
    ma_weight := 0.35
    macd_weight := 0.25
    bb_weight := 0.15
    buy_threshold := 0.4
    sell_threshold := 0.4 }

/-- The `buy_score` accumulated over the four sub-votes in
`ComboStrategy.generate_signals` (each sub-vote adds its weight on a buy;
the source's `elif` means a sub-vote with both flags true would count as a
buy only — sub-strategies never produce that combination). -/
def comboBuyScore (P : ComboParams) (rsi ma macd bb : SubSignal) : ℚ :=
  (if rsi.buy_signal then P.rsi_weight else 0) +
  (if ma.buy_signal then P.ma_weight else 0) +
  (if macd.buy_signal then P.macd_weight else 0) +
  (if bb.buy_signal then P.bb_weight else 0)

/-- The `sell_score` of `ComboStrategy.generate_signals`: a sub-vote adds its
weight exactly when its sell flag is set and its buy flag is not (the
source's `elif`). -/
def comboSellScore (P : ComboParams) (rsi ma macd bb : SubSignal) : ℚ :=
  (if ¬rsi.buy_signal ∧ rsi.sell_signal then P.rsi_weight else 0) +
  (if ¬ma.buy_signal ∧ ma.sell_signal then P.ma_weight else 0) +
  (if ¬macd.buy_signal ∧ macd.sell_signal then P.macd_weight else 0) +
  (if ¬bb.buy_signal ∧ bb.sell_signal then P.bb_weight else 0)

/-- The `reasons` list of `ComboStrategy.generate_signals`, in accumulation
order. -/
def comboReasons (rsi ma macd bb : SubSignal) : List String :=
  (if rsi.buy_signal then ["RSI買い"]
   else if rsi.sell_signal then ["RSI売り"] else []) ++
  (if ma.buy_signal then ["MA買い"]
   else if ma.sell_signal then ["MA売り"] else []) ++
  (if macd.buy_signal then ["MACD買い"]
   else if macd.sell_signal then ["MACD売り"] else []) ++
  (if bb.buy_signal then ["BB買い"]
   else if bb.sell_signal then ["BB売り"] else [])

/-- The final per-period decision of `ComboStrategy.generate_signals`
(lines 312-320 of `strategies.py`): `buy_signal` when
`buy_score >= buy_threshold`, `elif sell_score >= sell_threshold` the
`sell_signal`, otherwise the neutral row initialization. -/
def comboRow (P : ComboParams) (rsi ma macd bb : SubSignal) : Signal :=
  let buy_score := comboBuyScore P rsi ma macd bb
  let sell_score := comboSellScore P rsi ma macd bb
  if P.buy_threshold ≤ buy_score then
    { buy_signal := true, sell_signal := false
      signal_strength := buy_score
      signal_reason := String.intercalate (" | ") (comboReasons rsi ma macd bb) }
  else if P.sell_threshold ≤ sell_score then
    { buy_signal := false, sell_signal := true
      signal_strength := sell_score
      signal_reason := String.intercalate (" | ") (comboReasons rsi ma macd bb) }
  else
    { buy_signal := false, sell_signal := false
      signal_strength := 0, signal_reason := "" }

/-- The per-date loop of `ComboStrategy.generate_signals`, carrying the
previous row for the two crossover sub-strategies (their loops start at
index 1, so the first row keeps their neutral initialization).  The combo
constructs its sub-strategies freshly, so the RSI thresholds are the
`RSIStrategy` defaults 35/65. -/
def comboSignalsAux (P : ComboParams) (prev : Option IndicatorRow) :
    List IndicatorRow → List Signal
  | [] => []
  | r :: rest =>
      let ma := match prev with
        | none => { buy_signal := false, sell_signal := false }
        | some q => goldenCrossRow q r
      let macd := match prev with
        | none => { buy_signal := false, sell_signal := false }
        | some q => macdRow q r
      comboRow P (rsiRow 35 65 r) ma macd (bollingerRow r) ::
        comboSignalsAux P (some r) rest

/-- `ComboStrategy.generate_signals` over a whole indicator-annotated frame. -/
def comboGenerateSignals (P : ComboParams) (df : List IndicatorRow) :
    List Signal :=
  comboSignalsAux P none df

/-- The keys of `StrategyManager.strategies`. -/
def strategyNames : List String :=
  ["rsi", "golden_cross", "macd", "bollinger", "combo"]

/-- The configuration handed to a backtest run: the strategy selector and the
two numeric parameters the spec's configuration contract names.
`initial_capital` is the `BacktestEngine` constructor argument (default
1000000) and `position_size` is read by the simulator via
`strategy_params.get('position_size', 0.95)`. -/
structure BacktestConfig where
  strategy_name : String
  initial_capital : ℚ
  position_size : ℚ
deriving DecidableEq, Repr

/-- `BacktestEngine.run_backtest` composed with
`BacktestDataProcessor.generate_signals_for_backtest`: the only
configuration check on the whole path is the strategy-name lookup
(`strategy_manager.get_strategy` returning `None` raises
`ValueError('Unknown strategy: ...')` before the simulation); neither
`initial_capital` nor `position_size` is ever range-checked.  The periods
(price series zipped with the selected strategy's signals) are taken as
given, since no configuration check reads them. -/
def run_backtest (cfg : BacktestConfig) (periods : List Period) :
    Except String SimState :=
  if strategyNames.contains cfg.strategy_name then
    Except.ok (simulate cfg.position_size cfg.initial_capital periods)
  else
    Except.error ("Unknown strategy: " ++ cfg.strategy_name)

/-- Cost basis held by the open position (`shares * entry_price`), the
amount of cash the position consumed when it was opened; `0` when flat.
Used to state conservation of money across the simulation. -/
def posValue : Option Position → ℚ
  | none => 0
  | some p => p.shares * p.entry_price

/-- Invariant of the simulation pass, relative to the date `b` of the most
recently processed period: every recorded trade is a round-trip with
`entry_date ≤ exit_date ≤ b`, the recorded trades are pairwise ordered with
each exit strictly before the next entry, and an open position was entered
no later than `b` and strictly after every recorded exit. -/
def SimInv (b : ℤ) (st : SimState) : Prop :=
  (∀ t ∈ st.trades, t.entry_date ≤ t.exit_date ∧ t.exit_date ≤ b) ∧
  List.Pairwise (fun a c => a.exit_date < c.entry_date) st.trades ∧
  ∀ q, st.position = some q →
    q.entry_date ≤ b ∧ ∀ t ∈ st.trades, t.exit_date < q.entry_date

/-- Safety invariant for the cash account: cash is non-negative and any open
position holds a positive number of shares. -/
def CashInv (st : SimState) : Prop :=
  0 ≤ st.cash ∧ ∀ q, st.position = some q → 0 < q.shares

/-- The date of the last element of `ps`, or `b` when `ps` is empty (the
date bound reached after folding the simulation over `ps` starting below
`b`). -/
def lastDate (ps : List Period) (b : ℤ) : ℤ :=
  (ps.getLast?).elim b (·.date)

/-- Signal row with the given flags and reason (strength 0). -/
def mkSignal (b s : Bool) (r : String) : Signal :=
  { buy_signal := b, sell_signal := s, signal_strength := 0, signal_reason := r }

/-- The worked scenario of the spec: closes `[100, 90, 80, 95, 110]` on five
consecutive dates, a policy that buys on days 2 and 3 (price dropped more
than 5%) and sells on day 5 (price up more than 10% from the entry). -/
def samplePeriods : List Period :=
  [{ date := 1, close := 100, signal := mkSignal false false ("") },
   { date := 2, close := 90, signal := mkSignal true false ("drop") },
   { date := 3, close := 80, signal := mkSignal true false ("drop") },
   { date := 4, close := 95, signal := mkSignal false false ("") },
   { date := 5, close := 110, signal := mkSignal false true ("rise") }]

/-- A single completed trade with a strictly negative `profit_loss`. -/
def sampleLosingTrade : Trade :=
  { entry_date := 0, exit_date := 3, entry_price := 100, exit_price := 50
    shares := 1, profit_loss := -50, profit_loss_pct := -50
    entry_reason := "entry", exit_reason := "exit", holding_days := 3 }

/-- A completed trade with `profit_loss` exactly 0. -/
def sampleZeroTrade : Trade :=
  { entry_date := 0, exit_date := 2, entry_price := 100, exit_price := 100
    shares := 1, profit_loss := 0, profit_loss_pct := 0
    entry_reason := "entry", exit_reason := "exit", holding_days := 2 }

/-- A single period whose signal buys, leaving the position open at the end
of the series. -/
def sampleBuyPeriod : Period :=
  { date := 7, close := 10, signal := mkSignal true false ("b") }

/-- The position that `simulate (1/2) 100 [sampleBuyPeriod]` opens. -/
def sampleOpenPosition : Position :=
  { entry_date := 7, entry_price := 10, shares := 5, entry_reason := "b" }

/-- A period whose signal has buy and sell both true. -/
def bothSignalsPeriod : Period :=
  { date := 3, close := 10, signal := mkSignal true true ("both") }

/-- A period with only the sell flag set. -/
def sellOnlyPeriod : Period :=
  { date := 3, close := 10, signal := mkSignal false true ("sell") }

/-- A period with only the buy flag set. -/
def buyOnlyPeriod : Period :=
  { date := 3, close := 10, signal := mkSignal true false ("buy") }

/-- A simulator state holding an open position. -/
def sampleOpenState : SimState :=
  { cash := 100, position := some sampleOpenPosition, trades := [] }

/-- A simulator state with no open position. -/
def sampleFlatState : SimState :=
  { cash := 100, position := none, trades := [] }

/-- First indicator row of the combination-strategy scenario: no usable RSI
or Bollinger values yet; moving averages and MACD histogram positioned just
before a dead cross and a MACD golden cross. -/
def comboR0 : IndicatorRow :=
  { close := 100, rsi := none, sma25 := some 10, sma75 := some 9
    macd_histogram := some (-1), bb_upper := none, bb_lower := none }

/-- Second indicator row of the combination-strategy scenario: RSI oversold
(buy), moving-average dead cross (sell), MACD histogram crossing up (buy),
close at the upper Bollinger band (sell) — both weighted scores reach 1/2. -/
def comboR1 : IndicatorRow :=
  { close := 6, rsi := some 30, sma25 := some 8, sma75 := some 9
    macd_histogram := some 1, bb_upper := some 5, bb_lower := some 1 }

/-- A configuration whose strategy selector is known but whose
`initial_capital` is negative and whose `position_size` exceeds 1. -/
def badConfig : BacktestConfig :=
  { strategy_name := "rsi", initial_capital := -100, position_size := 2 }

/-- A streak-computation state in the middle of a winning run. -/
def sampleConsecState : ConsecState :=
  { consecutive_wins := [2], consecutive_losses := [1]
    current_wins := 3, current_losses := 0 }

/-!
## Theorems
-/

/-- C9: on the empty trade log, `calculate_comprehensive_metrics` returns
the well-defined empty report — all six basic statistics zero and every
remaining metric group the empty dict — and (being a total function) never
raises. -/
theorem empty_trades_well_defined (price_data : List ℚ) (initial_capital : ℚ) :
    calculate_comprehensive_metrics [] price_data initial_capital = emptyMetrics ∧
    emptyMetrics.basic_stats.total_trades = 0 ∧
    emptyMetrics.basic_stats.winning_trades = 0 ∧
    emptyMetrics.basic_stats.losing_trades = 0 ∧
    emptyMetrics.basic_stats.win_rate = 0 ∧
    emptyMetrics.basic_stats.total_return = 0 ∧
    emptyMetrics.basic_stats.total_return_pct = 0 ∧
    emptyMetrics.risk_metrics = none ∧
    emptyMetrics.profitability_metrics = none ∧
    emptyMetrics.efficiency_metrics = none ∧
    emptyMetrics.market_comparison = none ∧
    emptyMetrics.monthly_analysis = none ∧
    emptyMetrics.trade_analysis = none := by
  refine ⟨by simp [calculate_comprehensive_metrics], ?_⟩
  norm_num [emptyMetrics]

/-- C10: a trade with `profit_loss` exactly 0 extends the current losing
streak (incrementing its counter and flushing any running winning streak
into the completed-streaks list), although the basic-statistics filters
(`profit_loss > 0` and `profit_loss < 0`) count it as neither a winning nor
a losing trade. -/
theorem zero_profit_extends_losing_streak (s : ConsecState) (t : Trade)
    (h : t.profit_loss = 0) :
    (consecStep s t).current_losses = s.current_losses + 1 ∧
    (consecStep s t).current_wins = 0 ∧
    (consecStep s t).consecutive_wins =
      (if 0 < s.current_wins then s.consecutive_wins ++ [s.current_wins]
       else s.consecutive_wins) ∧
    (consecStep s t).consecutive_losses = s.consecutive_losses ∧
    ∀ trades : List Trade,
      t ∉ winningTrades trades ∧ t ∉ losingTrades trades := by
  have hnot : ¬ 0 < t.profit_loss := by rw [h]; exact lt_irrefl 0
  refine ⟨?_, ?_, ?_, ?_, ?_⟩
  · simp [consecStep, if_neg hnot]
  · simp only [consecStep, if_neg hnot]
    split_ifs with hw
    · rfl
    · omega
  · simp [consecStep, if_neg hnot]
  · simp [consecStep, if_neg hnot]
  · intro trades
    refine ⟨fun hm => ?_, fun hm => ?_⟩
    · simp [winningTrades, List.mem_filter, h] at hm
    · simp [losingTrades, List.mem_filter, h] at hm

/-- Witness for C10 at a concrete state and trade. -/
theorem zero_profit_extends_losing_streak_witness :
    sampleZeroTrade.profit_loss = 0 ∧
    (consecStep sampleConsecState sampleZeroTrade).current_losses =
      sampleConsecState.current_losses + 1 ∧
    (consecStep sampleConsecState sampleZeroTrade).current_wins = 0 :=
  ⟨by decide,
   (zero_profit_extends_losing_streak sampleConsecState sampleZeroTrade
     (by decide)).1,
   (zero_profit_extends_losing_streak sampleConsecState sampleZeroTrade
     (by decide)).2.1⟩

/-- C7: same-bar priority of the simulator.  With buy and sell both set: an
open position is closed (no same-bar reopen — the trade log grows by the
closing trade and the position becomes empty), and with no open position
the buy branch acts exactly as it would with the sell flag clear (the trade
log is untouched).  A sell with no open position and a buy with an open
position are no-ops. -/
theorem same_bar_priority (f : ℚ) :
    (∀ (st : SimState) (p : Period) (pos : Position),
       st.position = some pos → p.signal.buy_signal = true →
       p.signal.sell_signal = true →
       (simStep f st p).position = none ∧
       (simStep f st p).trades =
         st.trades ++ [closeTrade pos p.date p.close p.signal.signal_reason] ∧
       (simStep f st p).cash = st.cash + pos.shares * p.close) ∧
    (∀ (st : SimState) (p : Period),
       st.position = none → p.signal.buy_signal = true →
       (simStep f st p).trades = st.trades ∧
       simStep f st p =
         (if 0 < pyTrunc (st.cash * f / p.close) then
            { st with
                position := some
                  { entry_date := p.date, entry_price := p.close
                    shares := pyTrunc (st.cash * f / p.close)
                    entry_reason := p.signal.signal_reason }
                cash := st.cash - pyTrunc (st.cash * f / p.close) * p.close }
          else st)) ∧
    (∀ (st : SimState) (p : Period),
       st.position = none → p.signal.buy_signal = false →
       p.signal.sell_signal = true → simStep f st p = st) ∧
    (∀ (st : SimState) (p : Period) (pos : Position),
       st.position = some pos → p.signal.buy_signal = true →
       p.signal.sell_signal = false → simStep f st p = st) := by
  refine ⟨?_, ?_, ?_, ?_⟩
  · intro st p pos hpos hbuy hsell
    obtain ⟨cash, posn, trades⟩ := st
    simp only [SimState.position] at hpos
    subst hpos
    simp [simStep, hsell]
  · intro st p hpos hbuy
    obtain ⟨cash, posn, trades⟩ := st
    simp only [SimState.position] at hpos
    subst hpos
    constructor
    · simp only [simStep, hbuy]
      split_ifs <;> rfl
    · simp only [simStep, hbuy]
      rfl
  · intro st p hpos hbuy hsell
    obtain ⟨cash, posn, trades⟩ := st
    simp only [SimState.position] at hpos
    subst hpos
    simp [simStep, hbuy]
  · intro st p pos hpos hbuy hsell
    obtain ⟨cash, posn, trades⟩ := st
    simp only [SimState.position] at hpos
    subst hpos
    simp [simStep, hsell]

/-- Witness for C7 at concrete states and periods covering all four cases. -/
theorem same_bar_priority_witness :
    (sampleOpenState.position = some sampleOpenPosition ∧
     bothSignalsPeriod.signal.buy_signal = true ∧
     bothSignalsPeriod.signal.sell_signal = true ∧
     (simStep (1/2) sampleOpenState bothSignalsPeriod).position = none) ∧
    (sampleFlatState.position = none ∧
     (simStep (1/2) sampleFlatState bothSignalsPeriod).trades =
       sampleFlatState.trades) ∧
    simStep (1/2) sampleFlatState sellOnlyPeriod = sampleFlatState ∧
    simStep (1/2) sampleOpenState buyOnlyPeriod = sampleOpenState :=
  ⟨⟨rfl, rfl, rfl,
    ((same_bar_priority (1/2)).1 sampleOpenState bothSignalsPeriod
      sampleOpenPosition rfl rfl rfl).1⟩,
   ⟨rfl,
    ((same_bar_priority (1/2)).2.1 sampleFlatState bothSignalsPeriod
      rfl rfl).1⟩,
   (same_bar_priority (1/2)).2.2.1 sampleFlatState sellOnlyPeriod rfl rfl rfl,
   (same_bar_priority (1/2)).2.2.2 sampleOpenState buyOnlyPeriod
     sampleOpenPosition rfl rfl rfl⟩

/-- C6 (counterexample): a configuration with a known strategy selector but
a negative initial capital and a position-size fraction above 1 does NOT
fail — `run_backtest` returns a successful simulation, refuting the claim
that such configurations are rejected before the simulation starts. -/
theorem config_validation_counterexample :
    badConfig.initial_capital ≤ 0 ∧ 1 < badConfig.position_size ∧
    run_backtest badConfig samplePeriods =
      Except.ok (simulate badConfig.position_size badConfig.initial_capital
        samplePeriods) := by
  exact ⟨by norm_num [badConfig], by norm_num [badConfig], rfl⟩

/-- C6 (amended): the only configuration check on the backtest path is the
strategy-name lookup: an unknown selector yields the `Unknown strategy`
error before any simulation, and for a known selector the simulation always
runs — `initial_capital` and `position_size` are passed through unchecked
whatever their values. -/
theorem run_backtest_only_strategy_validated (cfg : BacktestConfig)
    (periods : List Period) :
    run_backtest cfg periods =
      (if cfg.strategy_name ∈ strategyNames then
         Except.ok (simulate cfg.position_size cfg.initial_capital periods)
       else Except.error ("Unknown strategy: " ++ cfg.strategy_name)) ∧
    ((∃ e, run_backtest cfg periods = Except.error e) ↔
      cfg.strategy_name ∉ strategyNames) := by
  by_cases h : cfg.strategy_name ∈ strategyNames <;>
    simp [run_backtest, h]

/-- C8 (counterexample): with the default combination parameters, on the
second period of the concrete stream `[comboR0, comboR1]` the weighted sell
score is 1/2, at or above the 0.4 sell threshold, yet no sell signal fires
(the buy score 1/2 also meets the buy threshold and the `elif` suppresses
the sell) — refuting `sell fires exactly when sell score ≥ threshold`. -/
theorem combo_sell_suppressed_counterexample :
    comboSellScore defaultComboParams (rsiRow 35 65 comboR1)
      (goldenCrossRow comboR0 comboR1) (macdRow comboR0 comboR1)
      (bollingerRow comboR1) = 1/2 ∧
    defaultComboParams.sell_threshold ≤ 1/2 ∧
    (comboGenerateSignals defaultComboParams [comboR0, comboR1]).map
      Signal.sell_signal = [false, false] ∧
    (comboGenerateSignals defaultComboParams [comboR0, comboR1]).map
      Signal.buy_signal = [false, true] := by
  norm_num [comboGenerateSignals, comboSignalsAux, comboRow, comboBuyScore,
    comboSellScore, comboReasons, rsiRow, goldenCrossRow, macdRow,
    bollingerRow, comboR0, comboR1, defaultComboParams]

/-- C8 (amended): the combination decision fires a buy exactly when the
weighted buy score reaches the buy threshold (a tie triggers, matching the
source's `>=`), and fires a sell exactly when the weighted sell score
reaches the sell threshold AND the buy signal did not fire (the source's
`elif`). -/
theorem combo_threshold_tie (P : ComboParams) (rsi ma macd bb : SubSignal) :
    ((comboRow P rsi ma macd bb).buy_signal = true ↔
      P.buy_threshold ≤ comboBuyScore P rsi ma macd bb) ∧
    ((comboRow P rsi ma macd bb).sell_signal = true ↔
      P.sell_threshold ≤ comboSellScore P rsi ma macd bb ∧
        comboBuyScore P rsi ma macd bb < P.buy_threshold) := by
  unfold comboRow
  dsimp only
  split_ifs with h1 h2
  · exact ⟨by simp [h1], by simp [not_lt.mpr h1]⟩
  · exact ⟨by simp [h1], by simp [h2, not_le.mp h1]⟩
  · exact ⟨by simp [h1], by simp [h2]⟩

/-- One simulation step preserves the quantity
`cash + cost basis of the open position - realized profit`:
an entry moves money from cash into the position at cost, an exit moves the
position's market value into cash and books the difference as the trade's
`profit_loss`. -/
theorem simStep_conservation (f : ℚ) (st : SimState) (p : Period) :
    (simStep f st p).cash + posValue (simStep f st p).position -
      ((simStep f st p).trades.map (·.profit_loss)).sum =
    st.cash + posValue st.position -
      (st.trades.map (·.profit_loss)).sum := by
  obtain ⟨cash, pos, trades⟩ := st
  cases pos with
  | none =>
      simp only [simStep]
      split_ifs with hb hn
      · simp only [posValue]
        ring
      · rfl
      · rfl
  | some q =>
      simp only [simStep]
      split_ifs with hs
      · simp only [posValue, closeTrade, List.map_append, List.sum_append,
          List.map_cons, List.sum_cons, List.map_nil, List.sum_nil]
        ring
      · rfl

/-- The conserved quantity of `simStep_conservation`, folded over a whole
period list. -/
theorem simFold_conservation (f : ℚ) (ps : List Period) : ∀ st : SimState,
    (ps.foldl (simStep f) st).cash +
        posValue (ps.foldl (simStep f) st).position -
        (((ps.foldl (simStep f) st).trades.map (·.profit_loss)).sum) =
      st.cash + posValue st.position -
        ((st.trades.map (·.profit_loss)).sum) := by
  induction ps with
  | nil => intro st; rfl
  | cons p rest ih =>
      intro st
      rw [List.foldl_cons, ih (simStep f st p), simStep_conservation]

/-- C2: every simulation ends flat (the forced closure leaves no open
position), its final cash equals the initial capital plus the sum of the
trade log's `profit_loss` — exactly, over exact arithmetic — and the
evaluator's `final_value` (initial capital plus total profit) therefore
equals the simulator's final cash. -/
theorem profit_conservation (f ic : ℚ) (periods : List Period) :
    (simulate f ic periods).position = none ∧
    (simulate f ic periods).cash =
      ic + (((simulate f ic periods).trades).map (·.profit_loss)).sum ∧
    (calcBasicStats (simulate f ic periods).trades ic).final_value =
      some ((simulate f ic periods).cash) := by
  have h := simFold_conservation f periods
    { cash := ic, position := none, trades := [] }
  simp only [posValue, List.map_nil, List.sum_nil, sub_zero, add_zero] at h
  have key : (simulate f ic periods).position = none ∧
      (simulate f ic periods).cash =
        ic + (((simulate f ic periods).trades).map (·.profit_loss)).sum := by
    simp only [simulate]
    rcases hp : (periods.foldl (simStep f)
        { cash := ic, position := none, trades := [] }).position with _ | pos
    · refine ⟨by simp only [hp], ?_⟩
      simp only [hp]
      rw [hp] at h
      simp only [posValue] at h
      linarith
    · rcases hl : periods.getLast? with _ | lastP
      · exfalso
        have hnil : periods = [] := by simpa using hl
        subst hnil
        simp at hp
      · refine ⟨by simp only [hp, hl], ?_⟩
        simp only [hp, hl]
        rw [hp] at h
        simp only [posValue] at h
        simp only [List.map_append, List.sum_append, List.map_cons,
          List.sum_cons, List.map_nil, List.sum_nil, closeTrade]
        linarith
  refine ⟨key.1, key.2, ?_⟩
  rw [key.2]
  simp [calcBasicStats, safe_numeric]

/-- C3: if a position is still open after the in-order pass over a nonempty
period sequence, the simulator appends exactly one more trade, closing that
position at the final period's date and close with the synthetic exit
reason `期間終了` ("period end"), and ends with no open position. -/
theorem forced_closure (f ic : ℚ) (periods : List Period)
    (hne : periods ≠ []) (pos : Position)
    (hpos : (periods.foldl (simStep f)
      { cash := ic, position := none, trades := [] }).position = some pos) :
    (simulate f ic periods).trades =
      (periods.foldl (simStep f)
          { cash := ic, position := none, trades := [] }).trades ++
        [closeTrade pos (periods.getLast hne).date
          (periods.getLast hne).close ("期間終了")] ∧
    (closeTrade pos (periods.getLast hne).date (periods.getLast hne).close
        ("期間終了")).exit_date = (periods.getLast hne).date ∧
    (closeTrade pos (periods.getLast hne).date (periods.getLast hne).close
        ("期間終了")).exit_price = (periods.getLast hne).close ∧
    (closeTrade pos (periods.getLast hne).date (periods.getLast hne).close
        ("期間終了")).exit_reason = "期間終了" ∧
    (simulate f ic periods).position = none := by
  have hl : periods.getLast? = some (periods.getLast hne) :=
    List.getLast?_eq_getLast periods hne
  refine ⟨?_, rfl, rfl, rfl, ?_⟩
  · simp only [simulate, hpos, hl]
  · simp only [simulate, hpos, hl]

/-- Witness for C3: a one-period series whose signal buys leaves a position
open, and the simulation force-closes it. -/
theorem forced_closure_witness :
    ([sampleBuyPeriod] ≠ ([] : List Period)) ∧
    (List.foldl (simStep (1/2))
        { cash := 100, position := none, trades := [] }
        [sampleBuyPeriod]).position = some sampleOpenPosition ∧
    (simulate (1/2) 100 [sampleBuyPeriod]).position = none :=
  ⟨by simp,
   by norm_num [simStep, sampleBuyPeriod, mkSignal, pyTrunc, sampleOpenPosition],
   (forced_closure (1/2) 100 [sampleBuyPeriod] (by simp) sampleOpenPosition
     (by norm_num [simStep, sampleBuyPeriod, mkSignal, pyTrunc,
       sampleOpenPosition])).2.2.2.2⟩

/-- C1 (counterexample): for the trade log holding exactly one losing trade
and no winning trade, the report's profit factor and payoff ratio are `0`,
not the 999.0 sentinel: gross loss is positive, so the sentinel branch is
not taken and the quotients `0 / gross_loss` and `|0 / avg_loss|` are zero. -/
theorem profit_factor_sentinel_counterexample :
    winningTrades [sampleLosingTrade] = [] ∧
    (losingTrades [sampleLosingTrade]).length = 1 ∧
    ((calculate_comprehensive_metrics [sampleLosingTrade] [100]
        1000000).profitability_metrics).map ProfitabilityMetrics.profit_factor
      = some 0 ∧
    ((calculate_comprehensive_metrics [sampleLosingTrade] [100]
        1000000).profitability_metrics).map ProfitabilityMetrics.payoff_ratio
      = some 0 ∧
    (0 : ℚ) ≠ 999 := by
  refine ⟨?_, ?_, ?_, ?_, by norm_num⟩ <;>
    norm_num [calculate_comprehensive_metrics, calcProfitabilityMetrics,
      winningTrades, losingTrades, sampleLosingTrade, npMean, safe_numeric,
      List.filter_cons]

/-- C1 (amended): for every trade log containing exactly one trade with
negative `profit_loss` and no trade with positive `profit_loss`, the report
contains a profitability group whose `profit_factor` and `payoff_ratio` are
both 0 — a finite value, neither Infinity nor NaN; the 999.0 sentinel is
reported only when gross loss is zero, i.e. when there is no losing trade
at all. -/
theorem single_loss_profitability (trades : List Trade)
    (price_data : List ℚ) (initial_capital : ℚ)
    (hw : winningTrades trades = [])
    (hl : (losingTrades trades).length = 1) :
    ∃ P, (calculate_comprehensive_metrics trades price_data
        initial_capital).profitability_metrics = some P ∧
      P.profit_factor = 0 ∧ P.payoff_ratio = 0 := by
  obtain ⟨t, ht⟩ := List.length_eq_one.mp hl
  have htmem : t ∈ losingTrades trades := by
    rw [ht]; exact List.mem_singleton_self t
  have htneg : t.profit_loss < 0 := by
    have hp := List.of_mem_filter htmem
    simpa using hp
  have htrne : trades ≠ [] := by
    intro hnil
    rw [hnil] at ht
    simp [losingTrades] at ht
  have habs : 0 < |t.profit_loss| := abs_pos.mpr (ne_of_lt htneg)
  simp only [calculate_comprehensive_metrics, if_neg htrne,
    calcProfitabilityMetrics, hw, ht]
  rw [if_neg (by simp)]
  refine ⟨_, rfl, ?_, ?_⟩
  · simp only [safe_numeric, List.map_nil, List.sum_nil, List.map_cons,
      List.sum_cons, add_zero]
    rw [if_pos habs, zero_div]
  · simp only [safe_numeric, npMean, List.map_nil, List.sum_nil,
      List.map_cons, List.sum_cons, add_zero, List.length_cons,
      List.length_nil]
    norm_num [ne_of_lt htneg]

/-- Witness for C1 (amended) at the concrete one-loss trade log. -/
theorem single_loss_profitability_witness :
    winningTrades [sampleLosingTrade] = [] ∧
    (losingTrades [sampleLosingTrade]).length = 1 ∧
    ∃ P, (calculate_comprehensive_metrics [sampleLosingTrade] [100]
        1000).profitability_metrics = some P ∧
      P.profit_factor = 0 ∧ P.payoff_ratio = 0 :=
  ⟨by norm_num [winningTrades, sampleLosingTrade, List.filter_cons],
   by norm_num [losingTrades, sampleLosingTrade, List.filter_cons],
   single_loss_profitability [sampleLosingTrade] [100] 1000
     (by norm_num [winningTrades, sampleLosingTrade, List.filter_cons])
     (by norm_num [losingTrades, sampleLosingTrade, List.filter_cons])⟩

/-- On a non-negative argument, Python's truncating `int()` is the floor. -/
theorem pyTrunc_nonneg_eq_floor (q : ℚ) (h : 0 ≤ q) : pyTrunc q = ⌊q⌋ := by
  unfold pyTrunc
  rw [if_pos h]

/-- The cash consumed by the floor-division sizing never exceeds the cash at
hand, provided the fraction lies in `(0,1]` and the price is positive. -/
theorem shares_value_le (cash f close : ℚ) (hc : 0 ≤ cash) (hf0 : 0 < f)
    (hf1 : f ≤ 1) (hcl : 0 < close) :
    (pyTrunc (cash * f / close) : ℚ) * close ≤ cash := by
  have hq : (0 : ℚ) ≤ cash * f / close := by positivity
  rw [pyTrunc_nonneg_eq_floor _ hq]
  have h1 : ((⌊cash * f / close⌋ : ℤ) : ℚ) ≤ cash * f / close :=
    Int.floor_le _
  have h2 : ((⌊cash * f / close⌋ : ℤ) : ℚ) * close ≤
      cash * f / close * close :=
    mul_le_mul_of_nonneg_right h1 hcl.le
  rw [div_mul_cancel₀ _ (ne_of_gt hcl)] at h2
  have h4 : cash * f ≤ cash := by
    calc cash * f ≤ cash * 1 := mul_le_mul_of_nonneg_left hf1 hc
    _ = cash := mul_one cash
  linarith

/-- One simulation step preserves the cash-safety invariant. -/
theorem simStep_cashInv (f : ℚ) (hf0 : 0 < f) (hf1 : f ≤ 1) (st : SimState)
    (p : Period) (hcl : 0 < p.close) (h : CashInv st) :
    CashInv (simStep f st p) := by
  obtain ⟨cash, pos, trades⟩ := st
  simp only [CashInv] at h
  obtain ⟨hc, hq⟩ := h
  cases pos with
  | none =>
      simp only [simStep]
      split_ifs with hb hn
      · constructor
        · have := shares_value_le cash f p.close hc hf0 hf1 hcl
          simp only []
          linarith
        · intro q hqq
          simp only [Option.some.injEq] at hqq
          rw [← hqq]
          exact hn
      · exact ⟨hc, hq⟩
      · exact ⟨hc, hq⟩
  | some q =>
      simp only [simStep]
      split_ifs with hs
      · constructor
        · have hq0 : 0 < q.shares := hq q rfl
          have hnn : (0 : ℚ) ≤ (q.shares : ℚ) * p.close := by
            have : (0 : ℚ) ≤ (q.shares : ℚ) := by exact_mod_cast hq0.le
            exact mul_nonneg this hcl.le
          simp only []
          linarith
        · intro r hr
          simp at hr
      · exact ⟨hc, hq⟩

/-- The cash-safety invariant is preserved by the whole in-order pass. -/
theorem simFold_cashInv (f : ℚ) (hf0 : 0 < f) (hf1 : f ≤ 1) :
    ∀ (ps : List Period) (st : SimState), CashInv st →
      (∀ p ∈ ps, 0 < p.close) → CashInv (ps.foldl (simStep f) st) := by
  intro ps
  induction ps with
  | nil => intro st h _; exact h
  | cons p rest ih =>
      intro st h hcl
      rw [List.foldl_cons]
      exact ih (simStep f st p)
        (simStep_cashInv f hf0 hf1 st p (hcl p (List.mem_cons_self p rest)) h)
        (fun q hq => hcl q (List.mem_cons_of_mem p hq))

/-- C5: with a position-size fraction in `(0,1]` and positive closes, each
qualifying buy sizes the position as `floor(cash * fraction / close)`; a
zero share count makes the period a no-op rather than an error; a positive
share count debits exactly `shares * close` and leaves the cash
non-negative; and the cash is non-negative after every step and at the end
of every simulation. -/
theorem floor_sizing_cash_safety (f : ℚ) (hf0 : 0 < f) (hf1 : f ≤ 1) :
    (∀ (st : SimState) (p : Period), st.position = none →
       p.signal.buy_signal = true → 0 ≤ st.cash → 0 < p.close →
       pyTrunc (st.cash * f / p.close) = ⌊st.cash * f / p.close⌋ ∧
       (pyTrunc (st.cash * f / p.close) = 0 → simStep f st p = st) ∧
       (0 < pyTrunc (st.cash * f / p.close) →
          (simStep f st p).cash =
            st.cash - pyTrunc (st.cash * f / p.close) * p.close ∧
          (simStep f st p).position = some
            { entry_date := p.date, entry_price := p.close
              shares := pyTrunc (st.cash * f / p.close)
              entry_reason := p.signal.signal_reason } ∧
          0 ≤ (simStep f st p).cash)) ∧
    (∀ (st : SimState) (p : Period), CashInv st → 0 < p.close →
       CashInv (simStep f st p)) ∧
    (∀ (ic : ℚ) (periods : List Period), 0 ≤ ic →
       (∀ p ∈ periods, 0 < p.close) →
       0 ≤ (simulate f ic periods).cash) := by
  refine ⟨?_, fun st p h hcl => simStep_cashInv f hf0 hf1 st p hcl h, ?_⟩
  · intro st p hpos hbuy hc hcl
    obtain ⟨cash, posn, trades⟩ := st
    simp only [SimState.position] at hpos
    subst hpos
    simp only [SimState.cash] at hc
    refine ⟨pyTrunc_nonneg_eq_floor _ (by positivity), ?_, ?_⟩
    · intro hz
      simp only [simStep, hbuy, if_true]
      dsimp only at hz
      rw [if_neg (by omega)]
    · intro hpos
      simp only [simStep, hbuy, if_true]
      rw [if_pos hpos]
      refine ⟨rfl, rfl, ?_⟩
      have := shares_value_le cash f p.close hc hf0 hf1 hcl
      simp only []
      linarith
  · intro ic periods hic hcl
    have hfold := simFold_cashInv f hf0 hf1 periods
      { cash := ic, position := none, trades := [] }
      ⟨hic, by intro q hq; simp at hq⟩ hcl
    simp only [simulate]
    rcases hp : (periods.foldl (simStep f)
        { cash := ic, position := none, trades := [] }).position with _ | pos
    · simp only [hp]
      exact hfold.1
    · rcases hl : periods.getLast? with _ | lastP
      · simp only [hp, hl]
        exact hfold.1
      · simp only [hp, hl]
        have hq0 : 0 < pos.shares := hfold.2 pos hp
        have hlmem : lastP ∈ periods := by
          obtain ⟨hne, hx⟩ := List.mem_getLast?_eq_getLast (by simpa using hl)
          rw [hx]
          exact List.getLast_mem hne
        have hclast : 0 < lastP.close := hcl lastP hlmem
        have hnn : (0 : ℚ) ≤ (pos.shares : ℚ) * lastP.close := by
          have : (0 : ℚ) ≤ (pos.shares : ℚ) := by exact_mod_cast hq0.le
          exact mul_nonneg this hclast.le
        have hcash := hfold.1
        linarith

/-- Witness for C5: the worked five-period scenario with fraction 0.95 and
capital 10000 satisfies all hypotheses, and its simulation keeps cash
non-negative. -/
theorem floor_sizing_cash_safety_witness :
    (0 : ℚ) < 0.95 ∧ (0.95 : ℚ) ≤ 1 ∧ (0 : ℚ) ≤ 10000 ∧
    (∀ p ∈ samplePeriods, 0 < p.close) ∧
    0 ≤ (simulate 0.95 10000 samplePeriods).cash :=
  ⟨by norm_num, by norm_num, by norm_num,
   by norm_num [samplePeriods, mkSignal],
   (floor_sizing_cash_safety 0.95 (by norm_num) (by norm_num)).2.2 10000
     samplePeriods (by norm_num)
     (by norm_num [samplePeriods, mkSignal])⟩

/-- `SimInv` is monotone in the date bound. -/
theorem simInv_mono {b c : ℤ} (hbc : b ≤ c) {st : SimState}
    (h : SimInv b st) : SimInv c st := by
  obtain ⟨h1, h2, h3⟩ := h
  exact ⟨fun t ht => ⟨(h1 t ht).1, le_trans (h1 t ht).2 hbc⟩, h2,
    fun q hq => ⟨le_trans (h3 q hq).1 hbc, (h3 q hq).2⟩⟩

/-- One simulation step at a period dated strictly after the bound
preserves the ordering invariant, moving the bound to the period's date. -/
theorem simStep_simInv (f : ℚ) {b : ℤ} {st : SimState} {p : Period}
    (hb : b < p.date) (h : SimInv b st) : SimInv p.date (simStep f st p) := by
  obtain ⟨cash, pos, trades⟩ := st
  obtain ⟨h1, h2, h3⟩ := h
  cases pos with
  | none =>
      simp only [simStep]
      split_ifs with hbuy hn
      · refine ⟨?_, h2, ?_⟩
        · intro t ht
          exact ⟨(h1 t ht).1, le_trans (h1 t ht).2 hb.le⟩
        · intro q hq
          simp only [Option.some.injEq] at hq
          rw [← hq]
          exact ⟨le_refl _, fun t ht => lt_of_le_of_lt (h1 t ht).2 hb⟩
      · exact ⟨fun t ht => ⟨(h1 t ht).1, le_trans (h1 t ht).2 hb.le⟩, h2,
          fun q hq => by simp at hq⟩
      · exact ⟨fun t ht => ⟨(h1 t ht).1, le_trans (h1 t ht).2 hb.le⟩, h2,
          fun q hq => by simp at hq⟩
  | some q0 =>
      simp only [simStep]
      split_ifs with hs
      · obtain ⟨hq0b, hq0all⟩ := h3 q0 rfl
        refine ⟨?_, ?_, ?_⟩
        · intro t ht
          rcases List.mem_append.mp ht with hm | hm
          · exact ⟨(h1 t hm).1, le_trans (h1 t hm).2 hb.le⟩
          · rw [List.mem_singleton] at hm
            subst hm
            simp only [closeTrade]
            exact ⟨le_trans hq0b hb.le, le_refl _⟩
        · rw [List.pairwise_append]
          refine ⟨h2, List.pairwise_singleton _ _, ?_⟩
          intro a ha t ht
          rw [List.mem_singleton] at ht
          subst ht
          simp only [closeTrade]
          exact hq0all a ha
        · intro q hq
          simp at hq
      · refine ⟨fun t ht => ⟨(h1 t ht).1, le_trans (h1 t ht).2 hb.le⟩, h2, ?_⟩
        intro q hq
        simp only [Option.some.injEq] at hq
        rw [← hq]
        exact ⟨le_trans (h3 q0 rfl).1 hb.le, (h3 q0 rfl).2⟩

/-- The ordering invariant carried through the whole in-order pass over a
strictly date-sorted period list: the bound advances to the last date. -/
theorem simFold_simInv (f : ℚ) : ∀ (ps : List Period) (b : ℤ) (st : SimState),
    List.Chain' (fun a c => a.date < c.date) ps →
    (∀ p, ps.head? = some p → b < p.date) →
    SimInv b st →
    SimInv (lastDate ps b) (ps.foldl (simStep f) st) := by
  intro ps
  induction ps with
  | nil =>
      intro b st _ _ h
      simpa [lastDate] using h
  | cons p rest ih =>
      intro b st hch hhd h
      rw [List.foldl_cons]
      have hb : b < p.date := hhd p rfl
      have hstep := simStep_simInv f hb h
      obtain ⟨hhd2, hch2⟩ := List.chain'_cons'.mp hch
      have hres := ih p.date (simStep f st p) hch2
        (fun q hq => hhd2 q (by simpa using hq)) hstep
      have hld : lastDate (p :: rest) b = lastDate rest p.date := by
        cases rest with
        | nil => simp [lastDate]
        | cons r rs =>
            simp [lastDate, List.getLast?_cons_cons,
              List.getLast?_eq_getLast_of_ne_nil (List.cons_ne_nil r rs)]
      rw [hld]
      exact hres

/-- C4: over a strictly date-increasing period sequence (at most one
position being open at any instant holds by construction — the simulator
state carries a single `Option Position`), every trade of the returned log
is a round-trip with `entry_date ≤ exit_date`, any two trades in log order
are separated (the earlier one's exit is strictly before the later one's
entry, so no two `[entry_date, exit_date]` intervals overlap), and the log
is strictly ascending in `exit_date`. -/
theorem trade_log_sorted_nonoverlapping (f ic : ℚ) (periods : List Period)
    (hch : List.Chain' (fun a c => a.date < c.date) periods) :
    (∀ t ∈ (simulate f ic periods).trades,
        t.entry_date ≤ t.exit_date) ∧
    List.Pairwise (fun a c => a.exit_date < c.entry_date)
      (simulate f ic periods).trades ∧
    List.Pairwise (fun a c => a.exit_date < c.exit_date)
      (simulate f ic periods).trades := by
  have hhd : ∀ p, periods.head? = some p →
      (periods.head?.elim 0 (·.date)) - 1 < p.date := by
    intro p hp
    rw [hp]
    simp
  have h0 : SimInv ((periods.head?.elim 0 (·.date)) - 1)
      { cash := ic, position := none, trades := [] } := by
    refine ⟨?_, ?_, ?_⟩
    · intro t ht
      simp at ht
    · simp
    · intro q hq
      simp at hq
  have hinv := simFold_simInv f periods ((periods.head?.elim 0 (·.date)) - 1)
    { cash := ic, position := none, trades := [] } hch hhd h0
  suffices hAB : (∀ t ∈ (simulate f ic periods).trades,
      t.entry_date ≤ t.exit_date) ∧
      List.Pairwise (fun a c => a.exit_date < c.entry_date)
        (simulate f ic periods).trades by
    refine ⟨hAB.1, hAB.2, ?_⟩
    exact List.Pairwise.imp_of_mem
      (fun ha hc hr => lt_of_lt_of_le hr (hAB.1 _ hc)) hAB.2
  simp only [simulate]
  rcases hp : (periods.foldl (simStep f)
      { cash := ic, position := none, trades := [] }).position with _ | pos
  · simp only [hp]
    obtain ⟨h1, h2, h3⟩ := hinv
    exact ⟨fun t ht => (h1 t ht).1, h2⟩
  · rcases hl : periods.getLast? with _ | lastP
    · exfalso
      have hnil : periods = [] := by simpa using hl
      subst hnil
      simp at hp
    · simp only [hp, hl]
      have hlastD : lastDate periods ((periods.head?.elim 0 (·.date)) - 1) =
          lastP.date := by
        simp [lastDate, hl]
      rw [hlastD] at hinv
      obtain ⟨h1, h2, h3⟩ := hinv
      obtain ⟨hpb, hpall⟩ := h3 pos hp
      constructor
      · intro t ht
        rcases List.mem_append.mp ht with hm | hm
        · exact (h1 t hm).1
        · rw [List.mem_singleton] at hm
          subst hm
          simp only [closeTrade]
          exact hpb
      · rw [List.pairwise_append]
        refine ⟨h2, List.pairwise_singleton _ _, ?_⟩
        intro a ha t ht
        rw [List.mem_singleton] at ht
        subst ht
        simp only [closeTrade]
        exact hpall a ha

/-- Witness for C4: the worked five-period scenario has strictly increasing
dates and its simulated log is strictly ascending in `exit_date`. -/
theorem trade_log_sorted_nonoverlapping_witness :
    List.Chain' (fun a c => a.date < c.date) samplePeriods ∧
    List.Pairwise (fun a c => a.exit_date < c.exit_date)
      (simulate 0.95 10000 samplePeriods).trades :=
  ⟨by norm_num [samplePeriods, mkSignal],
   (trade_log_sorted_nonoverlapping 0.95 10000 samplePeriods
     (by norm_num [samplePeriods, mkSignal])).2.2⟩

end StockAnalysis
